import Mathlib

/-!
Verification development for the GIAS patch pipeline
(`src/agent/patch_agent.py` and `src/tool/patch_tool.py`).

The Python code is shallowly embedded: strings are Lean `String`s
(operated on as `List Char`), the filesystem and the clock form an
explicit `World` state threaded through the effectful methods, and
Python exceptions are `Except String`.  Python string primitives
(`strip`, `split(sep, 1)`, `in`, `replace`, `endswith`) are modelled
character-exactly for the ASCII fragment the code exercises, and the
single regular expression used by `_parse_patch_specification` is
implemented as a dedicated backtracking matcher with the same
leftmost-match, greedy/lazy semantics as Python `re.finditer`.
-/

set_option maxRecDepth 4000

namespace GIAS

/-- Whitespace for Python `str.strip()` and the regex class `\s`
(ASCII fragment: space, tab, newline, carriage return, vertical tab,
form feed). -/
def pyIsSpace (c : Char) : Bool :=
  c == ' ' || c == '\t' || c == '\n' || c == '\r' || c == '\x0b' || c == '\x0c'

/-- Python `str.strip()` on a character list. -/
def stripL (l : List Char) : List Char :=
  ((l.dropWhile pyIsSpace).reverse.dropWhile pyIsSpace).reverse

/-- Python `str.strip()`. -/
def pystrip (s : String) : String :=
  String.mk (stripL s.toList)

/-- Whether `pat` is a literal prefix of `t`. -/
def isPrefixL : List Char → List Char → Bool
  | [], _ => true
  | _ :: _, [] => false
  | p :: ps, t :: ts => p == t && isPrefixL ps ts

/-- Index of the leftmost occurrence of `pat` in `t`, if any
(Python `str.find` for a found/not-found answer). -/
def findSubL (t pat : List Char) : Option Nat :=
  if isPrefixL pat t then some 0
  else
    match t with
    | [] => none
    | _ :: ts => (findSubL ts pat).map (· + 1)

/-- Python `sep in s` (substring containment, for non-empty `sep`). -/
def pycontains (s sep : String) : Bool :=
  (findSubL s.toList sep.toList).isSome

/-- Python `s.split(sep, 1)`: one element when `sep` does not occur,
two (split at the leftmost occurrence) when it does. -/
def pysplitOnce (s sep : String) : List String :=
  match findSubL s.toList sep.toList with
  | none => [s]
  | some i => [String.mk (s.toList.take i), String.mk (s.toList.drop (i + sep.toList.length))]

/-- Fuelled worker for Python `str.replace`: replace every
(leftmost-first, non-overlapping) occurrence of `pat` by `rep`. -/
def replaceFuel : Nat → List Char → List Char → List Char → List Char
  | 0, t, _, _ => t
  | fuel + 1, t, pat, rep =>
    match t with
    | [] => []
    | c :: ts =>
      if isPrefixL pat (c :: ts) && !pat.isEmpty then
        rep ++ replaceFuel fuel (List.drop pat.length (c :: ts)) pat rep
      else
        c :: replaceFuel fuel ts pat rep

/-- Python `s.replace(pat, rep)` for non-empty `pat`. -/
def pyreplace (s pat rep : String) : String :=
  String.mk (replaceFuel s.toList.length s.toList pat.toList rep.toList)

/-- Python `os.path.join(dir, name)` for a relative `name` and a `dir`
without a trailing slash (the only shape the code produces). -/
def pyJoin (dir name : String) : String :=
  dir ++ "/" ++ name

/-- Python `s.endswith(suffix)`. -/
def pyEndsWith (s suffix : String) : Bool :=
  isPrefixL suffix.toList.reverse s.toList.reverse

/-- Python `s[:n]` (truncation used on issue bodies and analyses). -/
def pySliceTo (s : String) (n : Nat) : String :=
  String.mk (s.toList.take n)

/-- One parsed per-file change: the dictionary value
`{"original": ..., "modified": ...}` built by the parser. -/
structure FileChange where
  original : String
  modified : String
  deriving DecidableEq, Repr

/-- Python dict assignment `changes[k] = v` on an insertion-ordered
association list: an existing key keeps its position and gets the new
value, a fresh key is appended. -/
def dictInsert (m : List (String × FileChange)) (k : String) (v : FileChange) :
    List (String × FileChange) :=
  match m with
  | [] => [(k, v)]
  | (k0, v0) :: rest =>
    if k0 == k then (k0, v) :: rest else (k0, v0) :: dictInsert rest k v

/-! ## The block regular expression

`_parse_patch_specification` scans its input with
`re.finditer` on the DOTALL pattern

  three backticks, optional `file` or `path`, optional `:`, `\s*`,
  `([^\n]+)`, a newline, a lazy `(.*?)`, a newline, three backticks.

The functions below implement exactly that pattern's backtracking
search: alternatives are tried in the regex's order (`file`, then
`path`, then the empty marker; a colon before no colon; `\s*` from its
maximal run down to nothing), `[^\n]+` is the maximal non-newline run
(shorter choices can never be followed by the required newline), and
the lazy body grows until the first `"\n"` + three backticks. -/

/-- Maximal non-newline run at the front of `t`, and the rest. -/
def takeLine : List Char → List Char × List Char
  | [] => ([], [])
  | c :: ts =>
    if c == '\n' then ([], c :: ts)
    else
      let p := takeLine ts
      (c :: p.1, p.2)

/-- Lazy search for the closing `"\n"` + three backticks: returns the
shortest body such that the closing sequence follows, with the text
after the match. -/
def lazyBodyTo (t : List Char) : Option (List Char × List Char) :=
  if isPrefixL ("\n```").toList t then some ([], t.drop 4)
  else
    match t with
    | [] => none
    | c :: ts => (lazyBodyTo ts).map (fun p => (c :: p.1, p.2))

/-- Length of the maximal `\s*` run at the front of `t`. -/
def leadingWs (t : List Char) : Nat :=
  (t.takeWhile pyIsSpace).length

/-- Match `([^\n]+)\n(.*?)\n` + fence from the front of `t`:
group 1, group 2, and the remainder after the whole match. -/
def matchFromLine (t : List Char) : Option (List Char × List Char × List Char) :=
  let p := takeLine t
  if p.1.isEmpty then none
  else
    match p.2 with
    | [] => none
    | _ :: rs => (lazyBodyTo rs).map (fun q => (p.1, q.1, q.2))

/-- Backtrack over the amount of `\s*` consumed, from `k` characters
down to none, taking the first amount that lets the rest match. -/
def tryWs : Nat → List Char → Option (List Char × List Char × List Char)
  | 0, t => matchFromLine t
  | k + 1, t =>
    match matchFromLine (t.drop (k + 1)) with
    | some r => some r
    | none => tryWs k t

/-- Match `:?\s*([^\n]+)\n(.*?)\n` + fence from the front of `u`. -/
def tryColonWs (u : List Char) : Option (List Char × List Char × List Char) :=
  let withColon :=
    match u with
    | c :: us => if c == ':' then tryWs (leadingWs us) us else none
    | [] => none
  match withColon with
  | some r => some r
  | none => tryWs (leadingWs u) u

/-- Match the pattern's tail right after the three opening backticks:
the optional `file`/`path` marker, then `tryColonWs`. -/
def afterFence (t : List Char) : Option (List Char × List Char × List Char) :=
  let tryMarker := fun (m : List Char) =>
    if isPrefixL m t then tryColonWs (t.drop m.length) else none
  match tryMarker ("file").toList with
  | some r => some r
  | none =>
    match tryMarker ("path").toList with
    | some r => some r
    | none => tryColonWs t

/-- `re.finditer` scan: try the pattern at each position left to
right; on a match, emit the two groups and resume after the match
(non-overlapping), otherwise advance one character. -/
def scanBlocks : Nat → List Char → List (List Char × List Char)
  | 0, _ => []
  | fuel + 1, t =>
    let tail := fun _ : Unit =>
      match t with
      | [] => []
      | _ :: ts => scanBlocks fuel ts
    if isPrefixL ("```").toList t then
      match afterFence (t.drop 3) with
      | some (g1, g2, rest) => (g1, g2) :: scanBlocks fuel rest
      | none => tail ()
    else tail ()

/-- The per-block `if "---" ... elif "=>" ... else` chain of
`_parse_patch_specification`, applied to the already-stripped block
content. -/
def parseBlockContent (content : String) : FileChange :=
  if pycontains content ("---") then
    let parts := pysplitOnce content ("---")
    let original := pystrip (parts.getD 0 (""))
    let modified := if parts.length > 1 then pystrip (parts.getD 1 ("")) else original
    ⟨original, modified⟩
  else if pycontains content ("=>") then
    let parts := pysplitOnce content ("=>")
    let original := pystrip (parts.getD 0 (""))
    let modified := if parts.length > 1 then pystrip (parts.getD 1 ("")) else original
    ⟨original, modified⟩
  else
    ⟨"", content⟩

/-- `PatchAgent._parse_patch_specification`: run the block regex over
the specification text, strip each path and body, split each body on
its separator, and collect the results into the insertion-ordered
`changes` dictionary. -/
def parse_patch_specification (spec_text : String) : List (String × FileChange) :=
  (scanBlocks (spec_text.toList.length + 1) spec_text.toList).foldl
    (fun changes m =>
      dictInsert changes (pystrip (String.mk m.1)) (parseBlockContent (pystrip (String.mk m.2))))
    []

/-! ## World state

The effectful methods of `PatchGenerator` touch the filesystem and the
clock.  Both are made explicit: a `World` carries the files (path,
content, creation time) and the two textual renderings of the current
time that the code uses (`datetime.now().isoformat()` and
`strftime("%Y%m%d_%H%M%S")`), plus a counter stamping creation times
of new files. -/

/-- One on-disk file. -/
structure SFile where
  path : String
  content : String
  ctime : Nat
  deriving DecidableEq, Repr

/-- The ambient state: filesystem plus clock renderings. -/
structure World where
  files : List SFile
  nowIso : String
  nowCompact : String
  clock : Nat
  deriving DecidableEq, Repr

/-- Overwrite-or-append: an existing path keeps its position and
creation time and gets the new content; a fresh path is appended with
creation time `t`. -/
def upsertFile : List SFile → String → String → Nat → List SFile
  | [], p, c, t => [⟨p, c, t⟩]
  | f :: fs, p, c, t =>
    if f.path == p then ⟨p, c, f.ctime⟩ :: fs else f :: upsertFile fs p c t

/-- Write a file (Python `open(..., "w")` + `write`). -/
def writeFile (w : World) (p c : String) : World :=
  { w with files := upsertFile w.files p c w.clock, clock := w.clock + 1 }

/-- Content of the file at `p`, if it exists. -/
def fsLookup (w : World) (p : String) : Option String :=
  (w.files.find? (fun f => f.path == p)).map SFile.content

/-- Creation time of the file at `p` (0 when absent). -/
def fsCtime (w : World) (p : String) : Nat :=
  ((w.files.find? (fun f => f.path == p)).map SFile.ctime).getD 0

/-- Python `os.listdir(dir)` restricted to how the code uses it:
names of files directly inside `dir`, in stored order. -/
def listdir (w : World) (dir : String) : List String :=
  w.files.filterMap (fun f =>
    let d := (dir ++ "/").toList
    if isPrefixL d f.path.toList then
      let rest := f.path.toList.drop d.length
      if rest.contains '/' then none else some (String.mk rest)
    else none)

/-! ## Diff renderer

`PatchGenerator.create_unified_diff` delegates line diffing to the
standard library (`difflib.unified_diff`), which is modelled here at
its interface: a deterministic function of the two line sequences, the
two header names and the context width, producing nothing when the
sequences are equal and otherwise `---`/`+++` headers followed by one
hunk with `n` lines of context around the changed middle. -/

/-- Python `str.splitlines(keepends=True)` worker: one line with its
terminator (`\n`, `\r\n` or `\r`), and the rest. -/
def takeLineKeep : List Char → List Char × List Char
  | [] => ([], [])
  | c :: ts =>
    if c == '\n' then ([c], ts)
    else if c == '\r' then
      match ts with
      | d :: ts2 => if d == '\n' then ([c, d], ts2) else ([c], ts)
      | [] => ([c], [])
    else
      let p := takeLineKeep ts
      (c :: p.1, p.2)

/-- Fuelled `splitlines(keepends=True)`. -/
def splitlinesFuel : Nat → List Char → List (List Char)
  | 0, _ => []
  | _, [] => []
  | fuel + 1, l =>
    let p := takeLineKeep l
    p.1 :: splitlinesFuel fuel p.2

/-- Python `str.splitlines(keepends=True)`. -/
def pySplitlinesKeepends (s : String) : List String :=
  (splitlinesFuel s.toList.length s.toList).map String.mk

/-- Length of the longest common prefix of two line lists. -/
def commonPrefixLen : List String → List String → Nat
  | a :: as, b :: bs => if a == b then commonPrefixLen as bs + 1 else 0
  | _, _ => 0

/-- Modelled stdlib `difflib.unified_diff` with `lineterm=""`:
deterministic in its arguments; yields no lines at all when the inputs
are equal, otherwise the two file headers and a single hunk whose
changed middle is surrounded by at most `n` common context lines. -/
def unifiedDiffModel (a b : List String) (fromfile tofile : String) (n : Nat) :
    List String :=
  if a == b then []
  else
    let p := commonPrefixLen a b
    let s := commonPrefixLen (a.drop p).reverse (b.drop p).reverse
    let ctxPre := min n p
    let ctxPost := min n s
    let aMid := (a.drop p).take (a.length - p - s)
    let bMid := (b.drop p).take (b.length - p - s)
    let aStart := p - ctxPre + 1
    let bStart := aStart
    let aCount := ctxPre + aMid.length + ctxPost
    let bCount := ctxPre + bMid.length + ctxPost
    ["--- " ++ fromfile, "+++ " ++ tofile,
     "@@ -" ++ toString aStart ++ "," ++ toString aCount ++
       " +" ++ toString bStart ++ "," ++ toString bCount ++ " @@"] ++
    ((a.drop (p - ctxPre)).take ctxPre).map (fun l => " " ++ l) ++
    aMid.map (fun l => "-" ++ l) ++
    bMid.map (fun l => "+" ++ l) ++
    ((a.drop (a.length - s)).take ctxPost).map (fun l => " " ++ l)

/-- `PatchGenerator.create_unified_diff`: split both texts into lines
with their terminators, diff them under `a/<path>` and `b/<path>`
headers, and join the resulting lines with newlines. -/
def create_unified_diff (original_content modified_content file_path : String)
    (context_lines : Nat) : String :=
  String.intercalate "\n"
    (unifiedDiffModel (pySplitlinesKeepends original_content)
      (pySplitlinesKeepends modified_content)
      ("a/" ++ file_path) ("b/" ++ file_path) context_lines)

/-- `create_unified_diff` threaded through the ambient state, the way
every method call is embedded: the method reads neither the
filesystem nor the clock and writes nothing, so the state passes
through untouched and the result depends only on the four
arguments. -/
def create_unified_diff_run (w : World)
    (original_content modified_content file_path : String)
    (context_lines : Nat) : String × World :=
  (create_unified_diff original_content modified_content file_path context_lines, w)

/-! ## PatchGenerator -/

/-- Constructor arguments of `PatchGenerator` (`repo_owner`,
`repo_name`, `output_dir`). -/
structure PatchGenCfg where
  repo_owner : String
  repo_name : String
  output_dir : String
  deriving DecidableEq, Repr

/-- `self.repo_full_name`. -/
def repoFullName (cfg : PatchGenCfg) : String :=
  cfg.repo_owner ++ "/" ++ cfg.repo_name

/-- `PatchGenerator._build_patch_header`. -/
def build_patch_header (cfg : PatchGenCfg) (now description author : String) : String :=
  "From: " ++ author ++ " <gias@github.local>\n" ++
  "Date: " ++ now ++ "\n" ++
  "Subject: Fix for " ++ repoFullName cfg ++ "\n" ++
  "X-GIAS-Repository: " ++ repoFullName cfg ++ "\n\n" ++
  description ++ "\n\n---\n"

/-- Message of the `ValueError` raised on an empty change set. -/
def noChangesMsg : String := "No changes provided for patch generation"

/-- `PatchGenerator.create_patch_file`: reject an empty change dict,
derive the patch name (the timestamped default when none is given),
fold the per-file diffs onto the header skipping no-op entries, and
write the document.  Returns the written path and the new state. -/
def create_patch_file (cfg : PatchGenCfg) (w : World)
    (changes : List (String × FileChange)) (patch_name : Option String)
    (description author : String) : Except String (String × World) :=
  if changes.isEmpty then Except.error noChangesMsg
  else
    let name :=
      match patch_name with
      | some n => n
      | none => cfg.repo_name ++ "_fix_" ++ w.nowCompact ++ ".patch"
    let patch_path := pyJoin cfg.output_dir name
    let header := build_patch_header cfg w.nowIso description author
    let patch_content := changes.foldl
      (fun acc pc =>
        if pc.2.original == pc.2.modified then acc
        else acc ++ "\n" ++ create_unified_diff pc.2.original pc.2.modified pc.1 3)
      header
    Except.ok (patch_path, writeFile w patch_path patch_content)

/-- `PatchGenerator.create_commit_message` (pure formatting). -/
def create_commit_message (cfg : PatchGenCfg) (issue_id : Nat)
    (issue_title description : String) : String :=
  "Fix #" ++ toString issue_id ++ ": " ++ issue_title ++ "\n\n" ++
  description ++ "\n\n" ++
  "Fixes: https://github.com/" ++ repoFullName cfg ++ "/issues/" ++
  toString issue_id ++ "\n\n" ++
  "Generated by GIAS (GitHub Issue Analysis System)\n"

/-- Minimal JSON string escaping for the serializer model. -/
def jsonEscape (s : String) : String :=
  String.mk (s.toList.foldr
    (fun c acc =>
      if c == '"' then '\\' :: '"' :: acc
      else if c == '\\' then '\\' :: '\\' :: acc
      else if c == '\n' then '\\' :: 'n' :: acc
      else c :: acc)
    [])

/-- A JSON string literal. -/
def jsonStr (s : String) : String :=
  "\"" ++ jsonEscape s ++ "\""

/-- The serialized metadata record written by `save_patch_metadata`
(`json.dump` of the dict, modelled without indentation). -/
def metadataJsonText (cfg : PatchGenCfg) (now : String) (issue_id : Nat)
    (issue_title patch_file analysis : String) (files_changed : List String) : String :=
  "\x7b" ++
  jsonStr ("timestamp") ++ ": " ++ jsonStr now ++ ", " ++
  jsonStr ("repository") ++ ": " ++ jsonStr (repoFullName cfg) ++ ", " ++
  jsonStr ("issue_id") ++ ": " ++ toString issue_id ++ ", " ++
  jsonStr ("issue_title") ++ ": " ++ jsonStr issue_title ++ ", " ++
  jsonStr ("patch_file") ++ ": " ++ jsonStr patch_file ++ ", " ++
  jsonStr ("analysis") ++ ": " ++ jsonStr analysis ++ ", " ++
  jsonStr ("files_changed") ++ ": [" ++
  String.intercalate ", " (files_changed.map jsonStr) ++ "]" ++
  "\x7d"

/-- `PatchGenerator.save_patch_metadata`: derive the metadata path
from the patch name with `str.replace(".patch", "_metadata.json")`
(every occurrence, as Python `replace` does), serialize the record and
write it.  Returns the metadata path and the new state. -/
def save_patch_metadata (cfg : PatchGenCfg) (w : World) (patch_name : String)
    (issue_id : Nat) (issue_title analysis : String) (files_changed : List String) :
    String × World :=
  let metadata_path := pyJoin cfg.output_dir (pyreplace patch_name (".patch") ("_metadata.json"))
  let text := metadataJsonText cfg w.nowIso issue_id issue_title patch_name analysis files_changed
  (metadata_path, writeFile w metadata_path text)

/-! ## JSON syntax checker

`list_patches` runs `json.load` on each metadata file it finds; an
invalid document raises `json.JSONDecodeError`.  The checker below
recognizes the JSON value grammar (objects, arrays, strings with
escapes, numbers, `true`/`false`/`null`) closely enough to separate
the documents the claims exercise. -/

/-- JSON insignificant whitespace. -/
def jsonWs (c : Char) : Bool :=
  c == ' ' || c == '\t' || c == '\n' || c == '\r'

/-- Consume a JSON string body after the opening quote, returning the
text after the closing quote. -/
def jsonStringRest : List Char → Option (List Char)
  | [] => none
  | c :: ts =>
    if c == '"' then some ts
    else if c == '\\' then
      match ts with
      | [] => none
      | _ :: ts2 => jsonStringRest ts2
    else jsonStringRest ts

/-- Consume a JSON number starting at a digit or minus sign
(simplified: a nonempty run of digits, signs, dots and exponents). -/
def jsonNumberRest (t : List Char) : Option (List Char) :=
  let isNumChar := fun (c : Char) =>
    c.isDigit || c == '-' || c == '+' || c == '.' || c == 'e' || c == 'E'
  let run := t.takeWhile isNumChar
  if run.isEmpty then none else some (t.drop run.length)

mutual

/-- Consume one JSON value, returning the unconsumed rest. -/
def jsonValue : Nat → List Char → Option (List Char)
  | 0, _ => none
  | fuel + 1, t =>
    let t := t.dropWhile jsonWs
    match t with
    | [] => none
    | c :: ts =>
      if c == '"' then jsonStringRest ts
      else if c == '\x7b' then jsonMembers fuel ts true
      else if c == '[' then jsonElements fuel ts true
      else if isPrefixL ("true").toList t then some (t.drop 4)
      else if isPrefixL ("false").toList t then some (t.drop 5)
      else if isPrefixL ("null").toList t then some (t.drop 4)
      else jsonNumberRest t

/-- Consume object members up to and including the closing brace. -/
def jsonMembers : Nat → List Char → Bool → Option (List Char)
  | 0, _, _ => none
  | fuel + 1, t, first =>
    let t := t.dropWhile jsonWs
    match t with
    | [] => none
    | c :: ts =>
      if c == '\x7d' then some ts
      else
        let t2 := if first then t else (if c == ',' then ts.dropWhile jsonWs else [])
        match t2 with
        | [] => none
        | k :: ks =>
          if k == '"' then
            match jsonStringRest ks with
            | none => none
            | some afterKey =>
              match (afterKey.dropWhile jsonWs) with
              | [] => none
              | col :: rest =>
                if col == ':' then
                  match jsonValue fuel rest with
                  | none => none
                  | some afterVal => jsonMembers fuel afterVal false
                else none
          else none

/-- Consume array elements up to and including the closing bracket. -/
def jsonElements : Nat → List Char → Bool → Option (List Char)
  | 0, _, _ => none
  | fuel + 1, t, first =>
    let t := t.dropWhile jsonWs
    match t with
    | [] => none
    | c :: ts =>
      if c == ']' then some ts
      else
        let t2 := if first then t else (if c == ',' then ts else [])
        match t2 with
        | [] => none
        | _ =>
          match jsonValue fuel t2 with
          | none => none
          | some afterVal => jsonElements fuel afterVal false

end

/-- Whether `json.loads` accepts the document. -/
def jsonParses (s : String) : Bool :=
  match jsonValue (s.toList.length + 1) s.toList with
  | none => false
  | some rest => (rest.dropWhile jsonWs).isEmpty

/-! ## Listing -/

/-- One entry of the `list_patches` result: the `patch_info` dict
(name, path, byte size, creation time, optional metadata recorded by
its source text once it parsed). -/
structure PatchInfo where
  name : String
  path : String
  size : Nat
  created : Nat
  metadata : Option String
  deriving DecidableEq, Repr

/-- Message of the `json.JSONDecodeError` escaping `list_patches`. -/
def jsonDecodeMsg : String := "Expecting value: line 1 column 1 (char 0)"

/-- Stable descending insertion by creation time (Python `sorted` with
`reverse=True` is stable: equal keys keep their scan order). -/
def insertByCreatedDesc (x : PatchInfo) : List PatchInfo → List PatchInfo
  | [] => [x]
  | y :: ys =>
    if x.created > y.created then x :: y :: ys else y :: insertByCreatedDesc x ys

/-- `sorted(patches, key=created, reverse=True)`: entries are taken in
scan order and each goes after every already-placed entry whose key is
at least its own, so equal keys keep their scan order. -/
def sortByCreatedDesc (l : List PatchInfo) : List PatchInfo :=
  l.foldl (fun acc x => insertByCreatedDesc x acc) []

/-- `PatchGenerator.list_patches`: scan the output directory for
`.patch` files, build each `patch_info`, and run `json.load` on an
existing metadata file with no exception handler — an invalid document
aborts the whole listing (`Except.error`).  Finally sort by creation
time, newest first. -/
def list_patches (cfg : PatchGenCfg) (w : World) : Except String (List PatchInfo) :=
  ((listdir w cfg.output_dir).foldlM
    (fun (acc : List PatchInfo) filename =>
      if pyEndsWith filename (".patch") then
        let patch_path := pyJoin cfg.output_dir filename
        let metadata_path := pyreplace patch_path (".patch") ("_metadata.json")
        let base : PatchInfo :=
          { name := filename, path := patch_path,
            size := ((fsLookup w patch_path).getD ("")).length,
            created := fsCtime w patch_path, metadata := none }
        match fsLookup w metadata_path with
        | some mc =>
          if jsonParses mc then Except.ok (acc ++ [{ base with metadata := some mc }])
          else Except.error jsonDecodeMsg
        | none => Except.ok (acc ++ [base])
      else Except.ok acc)
    []).map sortByCreatedDesc

/-! ## PatchAgent.generate_patch

The language-model call (`self._patch_gen_chain.invoke`) is an
external collaborator; its response text is passed in as the
`patch_spec` argument.  The call
`save_patch_metadata(patch_filename=..., ...)` is modelled with
explicit Python keyword binding: the call succeeds only if every
keyword names a parameter and every required parameter is bound,
otherwise it raises a `TypeError` that the surrounding
`try`/`except Exception` turns into the error outcome. -/

/-- Parameter names of `PatchGenerator.save_patch_metadata`
(after `self`). -/
def save_patch_metadata_params : List String :=
  ["patch_name", "issue_id", "issue_title", "analysis", "files_changed"]

/-- Keyword names used at the call site inside
`PatchAgent.generate_patch`. -/
def generate_patch_call_kwargs : List String :=
  ["patch_filename", "issue_id", "issue_title", "analysis", "files_changed"]

/-- Python keyword binding for a call made with keyword arguments
only: every keyword must name a parameter and every parameter must
receive a keyword (none of these parameters has a default). -/
def kwargsBindOk (params kwargs : List String) : Bool :=
  kwargs.all (fun k => params.contains k) && params.all (fun p => kwargs.contains p)

/-- Message of the `TypeError` raised at the metadata call site. -/
def kwargTypeErrorMsg : String :=
  "save_patch_metadata() got an unexpected keyword argument patch_filename"

/-- Message of the warning outcome for an empty parse. -/
def noCodeChangesMsg : String :=
  "Patch specification generated but contains no code changes"

/-- The dictionary returned by `PatchAgent.generate_patch`, restricted
to the fields the claims are about. -/
structure GenerateResult where
  status : String
  message : String
  patch_file : Option String
  metadata_file : Option String
  files_changed : List String
  deriving DecidableEq, Repr

/-- The patch filename synthesized inside `generate_patch`. -/
def issuePatchFilename (cfg : PatchGenCfg) (issue_id : Nat) : String :=
  "issue_" ++ toString issue_id ++ "_" ++ cfg.repo_name ++ "_fix.patch"

/-- `PatchAgent.generate_patch` (the agent's `PatchGenerator` is built
with the agent's repository and patches directory, carried in `cfg`):
parse the specification, return the warning outcome when nothing was
parsed, otherwise write the patch file, then attempt the
keyword-mismatched `save_patch_metadata` call; any raised error is
caught into the error outcome, keeping whatever state was already
written. -/
def generate_patch (cfg : PatchGenCfg) (w : World) (issue_id : Nat)
    (issue_title issue_body analysis patch_spec : String) : GenerateResult × World :=
  let changes := parse_patch_specification patch_spec
  if changes.isEmpty then
    ({ status := "warning", message := noCodeChangesMsg,
       patch_file := none, metadata_file := none, files_changed := [] }, w)
  else
    let patch_filename := issuePatchFilename cfg issue_id
    let description :=
      "Fix for " ++ issue_title ++ "\n\nIssue: #" ++ toString issue_id ++ "\n" ++
      pySliceTo issue_body 500
    match create_patch_file cfg w changes (some patch_filename) description
        ("GIAS Patch Agent") with
    | Except.error e =>
      ({ status := "error", message := e,
         patch_file := none, metadata_file := none, files_changed := [] }, w)
    | Except.ok (patch_path, w1) =>
      if kwargsBindOk save_patch_metadata_params generate_patch_call_kwargs then
        let changed_files := changes.map Prod.fst
        let smr := save_patch_metadata cfg w1 patch_filename issue_id issue_title
          analysis changed_files
        ({ status := "success", message := "",
           patch_file := some patch_path, metadata_file := some smr.1,
           files_changed := changed_files }, smr.2)
      else
        ({ status := "error", message := kwargTypeErrorMsg,
           patch_file := none, metadata_file := none, files_changed := [] }, w1)

/-! ## Spec-side definitions

Definitions in this section follow the specification's words, not the
code; they exist to be compared with the code-level definitions
above. -/

/-- The separator `pat` occurs in `s` starting at character index `i`. -/
def occursAt (s pat : String) (i : Nat) : Prop :=
  isPrefixL pat.toList (s.toList.drop i) = true

instance (s pat : String) (i : Nat) : Decidable (occursAt s pat i) := by
  unfold occursAt
  infer_instance

/-- Position and length of the first separator hit scanning left to
right, `"---"` winning over `"=>"` at the same position. -/
def firstSepHit : Nat → List Char → Option (Nat × Nat)
  | 0, _ => none
  | fuel + 1, t =>
    if isPrefixL ("---").toList t then some (0, 3)
    else if isPrefixL ("=>").toList t then some (0, 2)
    else
      match t with
      | [] => none
      | _ :: ts => (firstSepHit fuel ts).map (fun p => (p.1 + 1, p.2))

/-- Modelled from the spec: "only the first-found separator of either
kind, scanning left to right, is used", with `"---"` taking precedence
over `"=>"` when both could match at the same position; no separator
means a file creation (`original` empty). -/
def specFirstFoundSplit (c : String) : FileChange :=
  match firstSepHit (c.toList.length + 1) c.toList with
  | none => ⟨"", c⟩
  | some (i, len) =>
    ⟨pystrip (String.mk (c.toList.take i)), pystrip (String.mk (c.toList.drop (i + len)))⟩

/-- Modelled from the spec: the metadata name obtained by "suffix swap
`.patch` → `_metadata.json`" — only the trailing extension is
replaced. -/
def specTrailingSwap (name : String) : String :=
  String.mk (name.toList.take (name.toList.length - (".patch").toList.length)) ++
    "_metadata.json"

/-- Modelled from the spec: the metadata path under the output
directory with only the trailing `.patch` extension swapped. -/
def specTrailingSwapPath (cfg : PatchGenCfg) (name : String) : String :=
  pyJoin cfg.output_dir (specTrailingSwap name)

/-- The diff section of an assembled patch document: the
concatenation, in change-set order, of a newline plus the rendered
diff of every entry whose original and modified contents differ —
no-op entries contribute nothing. -/
def diffSection (changes : List (String × FileChange)) : String :=
  (changes.filterMap (fun pc =>
    if pc.2.original == pc.2.modified then none
    else some ("\n" ++ create_unified_diff pc.2.original pc.2.modified pc.1 3))).foldr
    (fun a b => a ++ b) ""

/-! ## Concrete inputs used by the claim instances -/

/-- A patch generator configured like the agent's
(`owner`, `repo`, `./patches`). -/
def cfgDemo : PatchGenCfg := ⟨"octo", "demo", "./patches"⟩

/-- An empty filesystem with a fixed clock. -/
def wEmpty : World := ⟨[], "2024-01-01T00:00:00", "20240101_000000", 0⟩

/-- A specification whose single block parses to one change. -/
def respC1 : String := "```file: a.py\nnew\n```"

/-- A block with content after the marker but nothing after the
`---` separator. -/
def c2cex : String := "```file: x.py\nold\n---\n```"

/-- An output directory holding two patches, the first with a
metadata file that is not valid JSON. -/
def wCorrupt : World :=
  ⟨[⟨"./patches/a.patch", "PATCH-A", 2⟩,
    ⟨"./patches/a_metadata.json", "not json", 1⟩,
    ⟨"./patches/b.patch", "PATCH-B", 3⟩], "T", "TC", 10⟩

/-- A block body holding `"=>"` before `"---"`. -/
def c4body : String := "a => b --- c"

/-- The same body inside a full specification. -/
def c4cex : String := "```file: x.py\na => b --- c\n```"

/-- A block whose two halves around `---` coincide (a no-op entry). -/
def c5input : String := "```file: a\nx\n---\nx\n```"

/-- A patch name in which `.patch` occurs twice. -/
def badPatchName : String := "v1.patch.patch"

/-- The spec's own worked example: a `file: y.py` block with body
`print(1)` and no separator. -/
def c7input : String := "```file: y.py\nprint(1)\n```"

/-- A marked block whose body spans two lines. -/
def c10cex : String := "```file: y.py\nbody\nmore\n```"

/-- The first line of the `c10cex` block. -/
def c10FirstLine : String := "file: y.py"

/-- A plain language-tagged block with no path marker. -/
def c10ex : String := "```python\nprint(1)\nprint(2)\n```"

/-- The patch filename `create_patch_file` ends up using: the given
name, or the timestamped default. -/
def patchNameOf (cfg : PatchGenCfg) (w : World) (patch_name : Option String) : String :=
  match patch_name with
  | some n => n
  | none => cfg.repo_name ++ "_fix_" ++ w.nowCompact ++ ".patch"

/-- Drop one leading colon, as the pattern's `:?` does. -/
def afterColonL (l : List Char) : List Char :=
  match l with
  | c :: cs => if c == ':' then cs else c :: cs
  | [] => []

/-- What the block pattern consumes from a block's first line before
capturing the file path: an optional leading `file` or `path` token
(`file` tried first), an optional colon, then leading whitespace.  The
remainder is the captured group before stripping. -/
def markerConsume (l : List Char) : List Char :=
  let afterTok :=
    if isPrefixL ("file").toList l then l.drop 4
    else if isPrefixL ("path").toList l then l.drop 4
    else l
  (afterColonL afterTok).dropWhile pyIsSpace

/-! ## Helper lemmas -/

theorem isPrefixL_refl (l : List Char) : isPrefixL l l = true := by
  induction l with
  | nil => rfl
  | cons c t ih => simp [isPrefixL, ih]

theorem findSubL_isPrefix (pat : List Char) :
    ∀ (t : List Char) (i : Nat), findSubL t pat = some i →
      isPrefixL pat (t.drop i) = true := by
  intro t
  induction t with
  | nil =>
    intro i h
    rw [findSubL] at h
    split at h
    · next hp => cases h; simpa using hp
    · simp at h
  | cons c ts ih =>
    intro i h
    rw [findSubL] at h
    split at h
    · next hp => cases h; simpa using hp
    · next hp =>
      cases hfs : findSubL ts pat with
      | none => rw [hfs] at h; simp at h
      | some j =>
        rw [hfs] at h
        simp at h
        subst h
        simpa using ih j hfs

theorem findSubL_min (pat : List Char) :
    ∀ (t : List Char) (i : Nat), findSubL t pat = some i →
      ∀ j, j < i → isPrefixL pat (t.drop j) = false := by
  intro t
  induction t with
  | nil =>
    intro i h
    rw [findSubL] at h
    split at h
    · next => cases h; intro j hj; omega
    · simp at h
  | cons c ts ih =>
    intro i h
    rw [findSubL] at h
    split at h
    · next => cases h; intro j hj; omega
    · next hp =>
      cases hfs : findSubL ts pat with
      | none => rw [hfs] at h; simp at h
      | some k =>
        rw [hfs] at h
        simp at h
        subst h
        intro j hj
        cases j with
        | zero => simpa using Bool.eq_false_iff.mpr hp
        | succ j' => simpa using ih k hfs j' (by omega)

theorem replaceFuel_nil (fuel : Nat) (pat rep : List Char) :
    replaceFuel fuel [] pat rep = [] := by
  cases fuel <;> rfl

theorem replaceFuel_append_tail (pat rep : List Char) (hpat : pat ≠ []) :
    ∀ (stem : List Char) (fuel : Nat), stem.length + pat.length ≤ fuel →
      (∀ j, j < stem.length → isPrefixL pat ((stem ++ pat).drop j) = false) →
      replaceFuel fuel (stem ++ pat) pat rep = stem ++ rep := by
  intro stem
  induction stem with
  | nil =>
    intro fuel hf hocc
    cases pat with
    | nil => exact absurd rfl hpat
    | cons c ps =>
      cases fuel with
      | zero => simp at hf
      | succ f =>
        simp only [List.nil_append]
        rw [replaceFuel]
        rw [if_pos (by simp [isPrefixL_refl])]
        rw [List.drop_length]
        rw [replaceFuel_nil]
        simp
  | cons c st ih =>
    intro fuel hf hocc
    cases fuel with
    | zero => simp at hf
    | succ f =>
      have h0 : isPrefixL pat (c :: (st ++ pat)) = false := by
        have := hocc 0 (by simp)
        simpa using this
      rw [List.cons_append, replaceFuel]
      rw [if_neg (by simp [h0])]
      have hrec := ih f (by simp at hf; omega)
        (fun j hj => by simpa using hocc (j + 1) (by simpa using hj))
      rw [hrec]
      rfl

theorem pycontains_of_findSubL {c sep : String} {i : Nat}
    (h : findSubL c.toList sep.toList = some i) : pycontains c sep = true := by
  unfold pycontains
  rw [h]
  rfl

theorem pycontains_false_of_findSubL {c sep : String}
    (h : findSubL c.toList sep.toList = none) : ¬(pycontains c sep = true) := by
  unfold pycontains
  rw [h]
  simp

theorem pysplitOnce_found {c sep : String} {i : Nat}
    (h : findSubL c.toList sep.toList = some i) :
    pysplitOnce c sep =
      [String.mk (c.toList.take i), String.mk (c.toList.drop (i + sep.toList.length))] := by
  unfold pysplitOnce
  rw [h]

theorem parseBlockContent_dashes {c : String} {i : Nat}
    (h : findSubL c.toList ("---").toList = some i) :
    parseBlockContent c =
      ⟨pystrip (String.mk (c.toList.take i)),
       pystrip (String.mk (c.toList.drop (i + 3)))⟩ := by
  unfold parseBlockContent
  rw [if_pos (pycontains_of_findSubL h)]
  rw [pysplitOnce_found h]
  simp [List.getD]

theorem parseBlockContent_arrow {c : String} {i : Nat}
    (hd : findSubL c.toList ("---").toList = none)
    (h : findSubL c.toList ("=>").toList = some i) :
    parseBlockContent c =
      ⟨pystrip (String.mk (c.toList.take i)),
       pystrip (String.mk (c.toList.drop (i + 2)))⟩ := by
  unfold parseBlockContent
  rw [if_neg (pycontains_false_of_findSubL hd)]
  rw [if_pos (pycontains_of_findSubL h)]
  rw [pysplitOnce_found h]
  simp [List.getD]

theorem parseBlockContent_noSep {c : String}
    (hd : findSubL c.toList ("---").toList = none)
    (ha : findSubL c.toList ("=>").toList = none) :
    parseBlockContent c = ⟨"", c⟩ := by
  unfold parseBlockContent
  rw [if_neg (pycontains_false_of_findSubL hd)]
  rw [if_neg (pycontains_false_of_findSubL ha)]

theorem find_upsert_self (p c : String) (t : Nat) :
    ∀ (fs : List SFile),
      ((upsertFile fs p c t).find? (fun f => f.path == p)).map SFile.content = some c := by
  intro fs
  induction fs with
  | nil => simp [upsertFile, List.find?]
  | cons f fs ih =>
    by_cases hp : f.path == p
    · simp [upsertFile, hp, List.find?]
    · simp only [upsertFile, hp]
      simp only [Bool.false_eq_true, if_false]
      simp [List.find?, hp, ih]

theorem find_upsert_other (p c : String) (t : Nat) (q : String) (hq : q ≠ p) :
    ∀ (fs : List SFile),
      (upsertFile fs p c t).find? (fun f => f.path == q) =
        fs.find? (fun f => f.path == q) := by
  have hpq : (p == q) = false := beq_eq_false_iff_ne.mpr (Ne.symm hq)
  intro fs
  induction fs with
  | nil => simp [upsertFile, List.find?, hpq]
  | cons f fs ih =>
    by_cases hp : (f.path == p) = true
    · have hfp : f.path = p := beq_iff_eq.mp hp
      have hfq : (f.path == q) = false := by
        rw [hfp]
        exact hpq
      simp [upsertFile, hp, List.find?, hfq, hpq]
    · simp only [upsertFile, hp]
      simp only [Bool.false_eq_true, if_false]
      simp [List.find?, ih]

theorem fsLookup_writeFile_self (w : World) (p c : String) :
    fsLookup (writeFile w p c) p = some c := by
  simp only [fsLookup, writeFile]
  exact find_upsert_self p c w.clock w.files

theorem fsLookup_writeFile_other (w : World) (p c q : String) (h : q ≠ p) :
    fsLookup (writeFile w p c) q = fsLookup w q := by
  simp only [fsLookup, writeFile]
  rw [find_upsert_other p c w.clock q h]

theorem patch_foldl_eq :
    ∀ (changes : List (String × FileChange)) (acc : String),
      changes.foldl
        (fun acc pc =>
          if pc.2.original == pc.2.modified then acc
          else acc ++ "\n" ++ create_unified_diff pc.2.original pc.2.modified pc.1 3)
        acc
        = acc ++ diffSection changes := by
  intro changes
  induction changes with
  | nil => intro acc; simp [diffSection]
  | cons pc rest ih =>
    intro acc
    by_cases hp : (pc.2.original == pc.2.modified) = true
    · simp only [List.foldl_cons, hp, if_true, ih, diffSection, List.filterMap_cons]
    · simp only [List.foldl_cons, hp, if_false, ih, diffSection, List.filterMap_cons]
      simp [hp, String.append_assoc]

theorem create_patch_file_cons (cfg : PatchGenCfg) (w : World)
    (ch : String × FileChange) (rest : List (String × FileChange))
    (pn : Option String) (d a : String) :
    create_patch_file cfg w (ch :: rest) pn d a =
      Except.ok (pyJoin cfg.output_dir (patchNameOf cfg w pn),
        writeFile w (pyJoin cfg.output_dir (patchNameOf cfg w pn))
          (build_patch_header cfg w.nowIso d a ++ diffSection (ch :: rest))) := by
  simp only [create_patch_file, List.isEmpty_cons, Bool.false_eq_true, if_false]
  rw [patch_foldl_eq]
  rfl

theorem generate_patch_cons (cfg : PatchGenCfg) (w : World) (issue_id : Nat)
    (issue_title issue_body analysis patch_spec : String)
    (ch : String × FileChange) (rest : List (String × FileChange))
    (hch : parse_patch_specification patch_spec = ch :: rest) :
    generate_patch cfg w issue_id issue_title issue_body analysis patch_spec =
      ({ status := "error", message := kwargTypeErrorMsg, patch_file := none,
         metadata_file := none, files_changed := [] },
       writeFile w (pyJoin cfg.output_dir (issuePatchFilename cfg issue_id))
         (build_patch_header cfg w.nowIso
            ("Fix for " ++ issue_title ++ "\n\nIssue: #" ++ toString issue_id ++ "\n" ++
              pySliceTo issue_body 500) ("GIAS Patch Agent") ++
          diffSection (ch :: rest))) := by
  unfold generate_patch
  rw [hch]
  simp only [List.isEmpty_cons, Bool.false_eq_true, if_false]
  rw [create_patch_file_cons]
  have hkw : kwargsBindOk save_patch_metadata_params generate_patch_call_kwargs = false := by
    decide
  simp only [hkw, Bool.false_eq_true, if_false]
  rfl

theorem isPrefixL_length_le : ∀ (p l : List Char), isPrefixL p l = true → p.length ≤ l.length := by
  intro p
  induction p with
  | nil => intro l h; simp
  | cons a ps ih =>
    intro l h
    cases l with
    | nil => simp [isPrefixL] at h
    | cons b ls =>
      simp only [isPrefixL, Bool.and_eq_true] at h
      simp only [List.length_cons]
      exact Nat.succ_le_succ (ih ls h.2)

theorem isPrefixL_append_newline :
    ∀ (m L tail : List Char), m.all (fun c => c != '\n') = true →
      isPrefixL m (L ++ '\n' :: tail) = isPrefixL m L := by
  intro m
  induction m with
  | nil => intro L tail h; rfl
  | cons a ms ih =>
    intro L tail h
    simp only [List.all_cons, Bool.and_eq_true] at h
    cases L with
    | nil =>
      have ha : (a == '\n') = false := by
        have := h.1
        simp only [bne_iff_ne, ne_eq] at this
        simpa using this
      simp [isPrefixL, ha]
    | cons b Ls =>
      show ((a == b) && isPrefixL ms (Ls ++ '\n' :: tail))
        = ((a == b) && isPrefixL ms Ls)
      rw [ih Ls tail h.2]

theorem all_dropWhile (p q : Char → Bool) :
    ∀ (l : List Char), l.all p = true → (l.dropWhile q).all p = true := by
  intro l
  induction l with
  | nil => intro h; exact h
  | cons c cs ih =>
    intro h
    simp only [List.all_cons, Bool.and_eq_true] at h
    by_cases hc : q c = true
    · simp only [List.dropWhile_cons, hc, if_true]
      exact ih h.2
    · simp only [List.dropWhile_cons, hc]
      simp only [Bool.false_eq_true, if_false, List.all_cons, Bool.and_eq_true]
      exact ⟨h.1, h.2⟩

theorem all_drop (p : Char → Bool) (l : List Char) (n : Nat) (h : l.all p = true) :
    (l.drop n).all p = true :=
  List.all_eq_true.mpr fun x hx => List.all_eq_true.mp h x (List.mem_of_mem_drop hx)

theorem dropWhile_append_of_ne_nil (p : Char → Bool) :
    ∀ (l m : List Char), l.dropWhile p ≠ [] →
      (l ++ m).dropWhile p = l.dropWhile p ++ m := by
  intro l
  induction l with
  | nil => intro m h; exact absurd rfl h
  | cons c cs ih =>
    intro m h
    by_cases hc : p c = true
    · simp only [List.dropWhile_cons, hc, if_true] at h
      simp only [List.cons_append, List.dropWhile_cons, hc, if_true]
      exact ih m h
    · simp [List.cons_append, List.dropWhile_cons, hc]

theorem drop_leadingWs : ∀ (v : List Char), v.drop (leadingWs v) = v.dropWhile pyIsSpace := by
  intro v
  induction v with
  | nil => rfl
  | cons c cs ih =>
    by_cases hc : pyIsSpace c = true
    · simp only [leadingWs, List.takeWhile_cons, hc, if_true, List.length_cons,
        List.drop_succ_cons, List.dropWhile_cons]
      exact ih
    · simp [leadingWs, List.takeWhile_cons, hc, List.dropWhile_cons]

theorem takeLine_append_newline :
    ∀ (core tail : List Char), core.all (fun c => c != '\n') = true →
      takeLine (core ++ '\n' :: tail) = (core, '\n' :: tail) := by
  intro core
  induction core with
  | nil => intro tail h; simp [takeLine]
  | cons c cs ih =>
    intro tail h
    simp only [List.all_cons, Bool.and_eq_true] at h
    have hc : (c == '\n') = false := by
      have := h.1
      simp only [bne_iff_ne, ne_eq] at this
      simpa using this
    show (if (c == '\n') = true then ([], c :: (cs ++ '\n' :: tail))
      else ((c :: (takeLine (cs ++ '\n' :: tail)).1, (takeLine (cs ++ '\n' :: tail)).2)))
        = (c :: cs, '\n' :: tail)
    rw [if_neg (by simp [hc])]
    rw [ih tail h.2]

theorem matchFromLine_line (core bodyTail BL : List Char)
    (hne : core ≠ [])
    (hnl : core.all (fun c => c != '\n') = true)
    (hlb : lazyBodyTo bodyTail = some (BL, [])) :
    matchFromLine (core ++ '\n' :: bodyTail) = some (core, BL, []) := by
  unfold matchFromLine
  rw [takeLine_append_newline core bodyTail hnl]
  have hie : core.isEmpty = false := by
    cases core with
    | nil => exact absurd rfl hne
    | cons c cs => rfl
  simp only [hie, Bool.false_eq_true, if_false]
  rw [hlb]
  rfl

theorem tryWs_hit (k : Nat) (t : List Char) (r : List Char × List Char × List Char)
    (hm : matchFromLine (t.drop k) = some r) : tryWs k t = some r := by
  cases k with
  | zero =>
    rw [tryWs]
    simpa using hm
  | succ k' =>
    rw [tryWs, hm]

theorem tryWs_ready (l bodyTail BL : List Char)
    (hl : l.all (fun c => c != '\n') = true)
    (hne : l.dropWhile pyIsSpace ≠ [])
    (hlb : lazyBodyTo bodyTail = some (BL, [])) :
    tryWs (leadingWs (l ++ '\n' :: bodyTail)) (l ++ '\n' :: bodyTail)
      = some (l.dropWhile pyIsSpace, BL, []) := by
  apply tryWs_hit
  rw [drop_leadingWs, dropWhile_append_of_ne_nil pyIsSpace l ('\n' :: bodyTail) hne]
  exact matchFromLine_line _ _ _ hne (all_dropWhile _ _ _ hl) hlb

theorem tryColonWs_line (restL bodyTail BL : List Char)
    (hr : restL.all (fun c => c != '\n') = true)
    (hcore : (afterColonL restL).dropWhile pyIsSpace ≠ [])
    (hlb : lazyBodyTo bodyTail = some (BL, [])) :
    tryColonWs (restL ++ '\n' :: bodyTail)
      = some ((afterColonL restL).dropWhile pyIsSpace, BL, []) := by
  cases restL with
  | nil => simp [afterColonL] at hcore
  | cons r rs =>
    unfold tryColonWs
    simp only [List.cons_append]
    by_cases hc : (r == ':') = true
    · have hac : afterColonL (r :: rs) = rs := by simp [afterColonL, hc]
      rw [hac] at hcore ⊢
      have hrs : rs.all (fun c => c != '\n') = true := by
        simp only [List.all_cons, Bool.and_eq_true] at hr
        exact hr.2
      simp only [hc, if_true]
      rw [tryWs_ready rs bodyTail BL hrs hcore hlb]
    · have hac : afterColonL (r :: rs) = r :: rs := by simp [afterColonL, hc]
      rw [hac] at hcore ⊢
      simp only [hc, Bool.false_eq_true, if_false]
      rw [← List.cons_append]
      rw [tryWs_ready (r :: rs) bodyTail BL hr hcore hlb]

theorem afterFence_line (LL bodyTail BL : List Char)
    (hL : LL.all (fun c => c != '\n') = true)
    (hcore : markerConsume LL ≠ [])
    (hlb : lazyBodyTo bodyTail = some (BL, [])) :
    afterFence (LL ++ '\n' :: bodyTail) = some (markerConsume LL, BL, []) := by
  unfold afterFence
  have hfile : isPrefixL ("file").toList (LL ++ '\n' :: bodyTail)
      = isPrefixL ("file").toList LL :=
    isPrefixL_append_newline _ _ _ (by decide)
  have hpath : isPrefixL ("path").toList (LL ++ '\n' :: bodyTail)
      = isPrefixL ("path").toList LL :=
    isPrefixL_append_newline _ _ _ (by decide)
  by_cases hf : isPrefixL ("file").toList LL = true
  · have hf4 : isPrefixL ['f', 'i', 'l', 'e'] LL = true := hf
    have hmc : markerConsume LL = (afterColonL (LL.drop 4)).dropWhile pyIsSpace := by
      unfold markerConsume
      simp [hf4]
    have h4 : 4 ≤ LL.length := isPrefixL_length_le _ _ hf
    rw [hmc] at hcore
    simp only [hfile, hf, if_true]
    rw [show (("file") : String).toList.length = 4 from rfl]
    rw [List.drop_append_of_le_length h4]
    rw [tryColonWs_line (LL.drop 4) bodyTail BL (all_drop _ _ _ hL) hcore hlb]
    rw [hmc]
  · by_cases hp : isPrefixL ("path").toList LL = true
    · have hf4 : isPrefixL ['f', 'i', 'l', 'e'] LL = false := by
        rw [← Bool.not_eq_true]
        exact hf
      have hp4 : isPrefixL ['p', 'a', 't', 'h'] LL = true := hp
      have hmc : markerConsume LL = (afterColonL (LL.drop 4)).dropWhile pyIsSpace := by
        unfold markerConsume
        simp [hf4, hp4]
      have h4 : 4 ≤ LL.length := isPrefixL_length_le _ _ hp
      rw [hmc] at hcore
      simp only [hfile, hf, Bool.false_eq_true, if_false, hpath, hp, if_true]
      rw [show (("path") : String).toList.length = 4 from rfl]
      rw [List.drop_append_of_le_length h4]
      rw [tryColonWs_line (LL.drop 4) bodyTail BL (all_drop _ _ _ hL) hcore hlb]
      rw [hmc]
    · have hf4 : isPrefixL ['f', 'i', 'l', 'e'] LL = false := by
        rw [← Bool.not_eq_true]
        exact hf
      have hp4 : isPrefixL ['p', 'a', 't', 'h'] LL = false := by
        rw [← Bool.not_eq_true]
        exact hp
      have hmc : markerConsume LL = (afterColonL LL).dropWhile pyIsSpace := by
        unfold markerConsume
        simp [hf4, hp4]
      rw [hmc] at hcore
      simp only [hfile, hf, hpath, hp, Bool.false_eq_true, if_false]
      rw [tryColonWs_line LL bodyTail BL hL hcore hlb]
      rw [hmc]

theorem lazyBodyTo_eq : ∀ (t : List Char),
    lazyBodyTo t =
      match findSubL t ['\n', '`', '`', '`'] with
      | none => none
      | some i => some (t.take i, t.drop (i + 4)) := by
  intro t
  induction t with
  | nil => rfl
  | cons c ts ih =>
    rw [lazyBodyTo, findSubL]
    by_cases hp : isPrefixL ['\n', '`', '`', '`'] (c :: ts) = true
    · have hp' : isPrefixL (("\n```") : String).toList (c :: ts) = true := hp
      rw [if_pos hp', if_pos hp]
      rfl
    · have hp' : ¬ isPrefixL (("\n```") : String).toList (c :: ts) = true := hp
      rw [if_neg hp', if_neg hp]
      rw [ih]
      cases findSubL ts ['\n', '`', '`', '`'] with
      | none => rfl
      | some i => rfl

theorem lazyBodyTo_closing (BL : List Char)
    (h : findSubL (BL ++ ['\n', '`', '`', '`']) ['\n', '`', '`', '`'] = some BL.length) :
    lazyBodyTo (BL ++ ['\n', '`', '`', '`']) = some (BL, []) := by
  rw [lazyBodyTo_eq, h]
  show some ((BL ++ ['\n', '`', '`', '`']).take BL.length,
    (BL ++ ['\n', '`', '`', '`']).drop (BL.length + 4)) = some (BL, [])
  have h1 : (BL ++ ['\n', '`', '`', '`']).take BL.length = BL := List.take_left BL _
  have h2 : (BL ++ ['\n', '`', '`', '`']).drop (BL.length + 4) = [] := by
    rw [List.drop_append]
    rfl
  rw [h1, h2]

theorem scanBlocks_nil (fuel : Nat) : scanBlocks fuel [] = [] := by
  cases fuel with
  | zero => rfl
  | succ f => rfl

theorem parse_single_block (L B : String)
    (hL : L.toList.all (fun c => c != '\n') = true)
    (hcore : markerConsume L.toList ≠ [])
    (hclose : findSubL (B ++ ("\n```")).toList (("\n```") : String).toList
        = some B.toList.length) :
    parse_patch_specification (("```") ++ L ++ ("\n") ++ B ++ ("\n```"))
      = [(pystrip (String.mk (markerConsume L.toList)),
          parseBlockContent (pystrip B))] := by
  have hclose' : findSubL (B.toList ++ ['\n', '`', '`', '`']) ['\n', '`', '`', '`']
      = some B.toList.length := by
    have hBtl : (B ++ ("\n```")).toList = B.toList ++ ['\n', '`', '`', '`'] := by
      simp [String.toList]
    have e := hclose
    rw [hBtl] at e
    exact e
  have hlb : lazyBodyTo (B.toList ++ ['\n', '`', '`', '`']) = some (B.toList, []) :=
    lazyBodyTo_closing B.toList hclose'
  have hIL : (("```") ++ L ++ ("\n") ++ B ++ ("\n```")).toList
      = '`' :: '`' :: '`' ::
          (L.toList ++ '\n' :: (B.toList ++ ['\n', '`', '`', '`'])) := by
    simp [String.toList]
  unfold parse_patch_specification
  rw [hIL]
  rw [scanBlocks]
  have hfence : isPrefixL (("```") : String).toList
      ('`' :: '`' :: '`' ::
        (L.toList ++ '\n' :: (B.toList ++ ['\n', '`', '`', '`']))) = true := by
    simp [isPrefixL]
  rw [if_pos hfence]
  simp only [List.drop_succ_cons, List.drop_zero]
  rw [afterFence_line L.toList (B.toList ++ ['\n', '`', '`', '`']) B.toList
    hL hcore hlb]
  simp only [scanBlocks_nil]
  rfl

/-! ## The claims -/

/-- C1: whenever `_parse_patch_specification` extracts a non-empty
change set, `generate_patch` returns status `"error"` and never
`"success"`: the `save_patch_metadata(patch_filename=...)` call site
uses a keyword that is not a parameter of the method (whose parameter
is `patch_name`), so the success path always raises a `TypeError`
caught into the error outcome.  Moreover the patch file has already
been written (its path maps to some content afterwards) while nothing
else on disk changes — in particular no metadata file is ever
written. -/
theorem c1_generate_patch_keyword_mismatch (cfg : PatchGenCfg) (w : World)
    (issue_id : Nat) (issue_title issue_body analysis patch_spec : String)
    (h : parse_patch_specification patch_spec ≠ []) :
    (generate_patch cfg w issue_id issue_title issue_body analysis patch_spec).1.status
        = "error" ∧
    (generate_patch cfg w issue_id issue_title issue_body analysis patch_spec).1.status
        ≠ "success" ∧
    (∃ content,
      fsLookup (generate_patch cfg w issue_id issue_title issue_body analysis patch_spec).2
        (pyJoin cfg.output_dir (issuePatchFilename cfg issue_id)) = some content) ∧
    (∀ p, p ≠ pyJoin cfg.output_dir (issuePatchFilename cfg issue_id) →
      fsLookup (generate_patch cfg w issue_id issue_title issue_body analysis patch_spec).2 p
        = fsLookup w p) := by
  cases hch : parse_patch_specification patch_spec with
  | nil => exact absurd hch h
  | cons ch rest =>
    rw [generate_patch_cons cfg w issue_id issue_title issue_body analysis patch_spec
      ch rest hch]
    refine ⟨rfl, ?_, ⟨_, fsLookup_writeFile_self w _ _⟩, ?_⟩
    · show ("error" : String) ≠ "success"
      decide
    · intro p hp
      exact fsLookup_writeFile_other w _ _ p hp

/-- C1 witness: a concrete one-block specification parses to one
change, and `generate_patch` on it ends in the error status. -/
theorem c1_generate_patch_keyword_mismatch_witness :
    (generate_patch cfgDemo wEmpty 1 ("t") ("b") ("an") respC1).1.status = "error" :=
  (c1_generate_patch_keyword_mismatch cfgDemo wEmpty 1 ("t") ("b") ("an") respC1
    (by decide)).1

/-- C2 counterexample: a block whose content is `old` + newline +
`---` (a separator with nothing after it) parses with `modified` equal
to the empty string, which differs from `original = "old"` — refuting
the claim that `modified` is set equal to `original`. -/
theorem c2_separator_no_content_counterexample :
    parse_patch_specification c2cex = [("x.py", ⟨"old", ""⟩)] ∧ ("" : String) ≠ "old" := by
  decide

/-- C2 amended: when a separator is present but nothing (or only
whitespace) follows it, `modified` is the empty string — the text
after the separator, stripped — not a copy of `original`: with a found
separator `split(sep, 1)` always yields two parts, so the
`else original` fallback never runs. -/
theorem c2_separator_no_content_amended (c : String) (i : Nat) :
    (findSubL c.toList ("---").toList = some i →
      pystrip (String.mk (c.toList.drop (i + 3))) = "" →
      (parseBlockContent c).modified = "") ∧
    (findSubL c.toList ("---").toList = none →
      findSubL c.toList ("=>").toList = some i →
      pystrip (String.mk (c.toList.drop (i + 2))) = "" →
      (parseBlockContent c).modified = "") := by
  constructor
  · intro h hpost
    rw [parseBlockContent_dashes h]
    exact hpost
  · intro hd h hpost
    rw [parseBlockContent_arrow hd h]
    exact hpost

/-- C2 witness: the amended statement at the concrete content
`old` + newline + `---`. -/
theorem c2_separator_no_content_witness :
    (parseBlockContent ("old\n---")).modified = "" :=
  (c2_separator_no_content_amended ("old\n---") 4).1 (by decide) (by decide)

/-- C3 (code bug): `list_patches` runs `json.load` on an existing
metadata file with no exception handling, so a metadata file that is
not valid JSON aborts the whole listing with a raised decode error —
even though another valid patch is present in the directory — instead
of returning the listing with that entry's metadata omitted. -/
theorem c3_corrupt_metadata_aborts_listing :
    list_patches cfgDemo wCorrupt = Except.error jsonDecodeMsg := by
  rfl

/-- C4 counterexample: in the body `a => b --- c` both separators
occur and `=>` comes first, yet the parser splits on `---` (checked
first by the `if`/`elif` chain regardless of position), producing
`original = "a => b"`, `modified = "c"` — not the first-found-split
`original = "a"`, `modified = "b --- c"` that the claim describes. -/
theorem c4_precedence_counterexample :
    parse_patch_specification c4cex = [("x.py", ⟨"a => b", "c"⟩)] ∧
    parseBlockContent c4body ≠ specFirstFoundSplit c4body := by
  decide

/-- C4 amended: `---` takes unconditional precedence: if `---` occurs
anywhere in the content the split happens at its leftmost occurrence
(even when `=>` occurs earlier); only if `---` is absent does the
split happen at the leftmost `=>`.  The content is split exactly once
and the two halves are only stripped, never re-split. -/
theorem c4_precedence_amended (c : String) (i : Nat) :
    (findSubL c.toList ("---").toList = some i →
      occursAt c ("---") i ∧ (∀ j, j < i → ¬ occursAt c ("---") j) ∧
      parseBlockContent c =
        ⟨pystrip (String.mk (c.toList.take i)),
         pystrip (String.mk (c.toList.drop (i + 3)))⟩) ∧
    (findSubL c.toList ("---").toList = none →
      findSubL c.toList ("=>").toList = some i →
      occursAt c ("=>") i ∧ (∀ j, j < i → ¬ occursAt c ("=>") j) ∧
      parseBlockContent c =
        ⟨pystrip (String.mk (c.toList.take i)),
         pystrip (String.mk (c.toList.drop (i + 2)))⟩) := by
  constructor
  · intro h
    refine ⟨findSubL_isPrefix _ _ _ h, ?_, parseBlockContent_dashes h⟩
    intro j hj
    unfold occursAt
    rw [findSubL_min _ _ _ h j hj]
    exact Bool.false_ne_true
  · intro hd h
    refine ⟨findSubL_isPrefix _ _ _ h, ?_, parseBlockContent_arrow hd h⟩
    intro j hj
    unfold occursAt
    rw [findSubL_min _ _ _ h j hj]
    exact Bool.false_ne_true

/-- C4 witness: the amended statement at the concrete content
`a --- b`, whose leftmost separator sits at index 2. -/
theorem c4_precedence_witness : parseBlockContent ("a --- b") = ⟨"a", "b"⟩ := by
  rw [((c4_precedence_amended ("a --- b") 2).1 (by decide)).2.2]
  decide

/-- C5: the parser keeps no-op entries (a block whose halves around
`---` coincide yields `original = modified`), and `create_patch_file`
skips every entry with `original == modified` at assembly: the written
document is exactly the header followed by `diffSection`, which
renders only the entries whose contents differ, so no diff fragment
for a no-op path ever appears. -/
theorem c5_noop_skipped_at_assembly :
    parse_patch_specification c5input = [("a", ⟨"x", "x"⟩)] ∧
    ∀ (cfg : PatchGenCfg) (w : World) (changes : List (String × FileChange))
      (pn : Option String) (d a : String), changes ≠ [] →
      create_patch_file cfg w changes pn d a =
        Except.ok (pyJoin cfg.output_dir (patchNameOf cfg w pn),
          writeFile w (pyJoin cfg.output_dir (patchNameOf cfg w pn))
            (build_patch_header cfg w.nowIso d a ++ diffSection changes)) := by
  constructor
  · decide
  · intro cfg w changes pn d a h
    cases changes with
    | nil => exact absurd rfl h
    | cons ch rest => exact create_patch_file_cons cfg w ch rest pn d a

/-- C5 witness: the assembly statement at a concrete one-entry change
set. -/
theorem c5_noop_skipped_at_assembly_witness :
    create_patch_file cfgDemo wEmpty [("a.py", ⟨"x", "y"⟩)] none ("d") ("auth") =
      Except.ok (pyJoin cfgDemo.output_dir (patchNameOf cfgDemo wEmpty none),
        writeFile wEmpty (pyJoin cfgDemo.output_dir (patchNameOf cfgDemo wEmpty none))
          (build_patch_header cfgDemo wEmpty.nowIso ("d") ("auth") ++
            diffSection [("a.py", ⟨"x", "y"⟩)])) :=
  c5_noop_skipped_at_assembly.2 cfgDemo wEmpty [("a.py", ⟨"x", "y"⟩)] none ("d") ("auth")
    (by decide)

/-- C6 counterexample: for the patch name `v1.patch.patch`,
`save_patch_metadata` derives the metadata path with Python
`str.replace`, which replaces every occurrence of `.patch`, so the
result differs from the spec's trailing-suffix swap. -/
theorem c6_suffix_swap_counterexample :
    (save_patch_metadata cfgDemo wEmpty badPatchName 1 ("t") ("an") []).1 ≠
      specTrailingSwapPath cfgDemo badPatchName := by
  decide

/-- C6 amended: the metadata path replaces every occurrence of
`.patch` in the patch name by `_metadata.json`; when `.patch` occurs
only as the trailing extension (its leftmost occurrence is the
trailing one) this coincides with the trailing suffix swap, and the
derivation depends only on the configuration and the name. -/
theorem c6_suffix_swap_amended (cfg : PatchGenCfg) (w : World) (stem : String)
    (issue_id : Nat) (issue_title analysis : String) (files_changed : List String)
    (h : findSubL (stem ++ (".patch")).toList ((".patch") : String).toList
        = some stem.toList.length) :
    (save_patch_metadata cfg w (stem ++ (".patch")) issue_id issue_title analysis
        files_changed).1
      = pyJoin cfg.output_dir (stem ++ ("_metadata.json")) ∧
    (∀ (w' : World) (id' : Nat) (t' a' : String) (f' : List String),
      (save_patch_metadata cfg w' (stem ++ (".patch")) id' t' a' f').1
        = (save_patch_metadata cfg w (stem ++ (".patch")) issue_id issue_title analysis
            files_changed).1) := by
  constructor
  · show pyJoin cfg.output_dir (pyreplace (stem ++ (".patch")) (".patch") ("_metadata.json"))
      = pyJoin cfg.output_dir (stem ++ ("_metadata.json"))
    have htl : (stem ++ (".patch")).toList = stem.toList ++ ((".patch") : String).toList := by
      simp [String.toList]
    have hocc := findSubL_min ((".patch") : String).toList _ _ h
    unfold pyreplace
    rw [htl] at hocc ⊢
    rw [replaceFuel_append_tail ((".patch") : String).toList
      (("_metadata.json") : String).toList (by decide) stem.toList
      ((stem.toList ++ ((".patch") : String).toList).length)
      (Nat.le_of_eq (List.length_append _ _).symm) hocc]
    have : (stem ++ ("_metadata.json")).toList
        = stem.toList ++ (("_metadata.json") : String).toList := by
      simp [String.toList]
    rw [← this]
    rfl
  · intro w' id' t' a' f'
    rfl

/-- C6 witness: the amended statement at the stem
`issue_1_demo_fix`, where `.patch` occurs only as the trailing
extension. -/
theorem c6_suffix_swap_witness :
    (save_patch_metadata cfgDemo wEmpty (("issue_1_demo_fix") ++ (".patch")) 1 ("t")
        ("an") []).1
      = pyJoin cfgDemo.output_dir (("issue_1_demo_fix") ++ ("_metadata.json")) :=
  (c6_suffix_swap_amended cfgDemo wEmpty ("issue_1_demo_fix") 1 ("t") ("an") []
    (by decide)).1

/-- C7: a block content containing neither separator yields
`original = ""` and `modified` equal to the (stripped) body, and the
spec's worked example — a `file: y.py` block with body `print(1)` —
parses to exactly that change set. -/
theorem c7_no_separator_new_file :
    (∀ c : String, findSubL c.toList ("---").toList = none →
      findSubL c.toList ("=>").toList = none →
      parseBlockContent c = ⟨"", c⟩) ∧
    parse_patch_specification c7input = [("y.py", ⟨"", "print(1)"⟩)] := by
  constructor
  · intro c hd ha
    exact parseBlockContent_noSep hd ha
  · decide

/-- C7 witness: the universal part at the concrete body
`print(1)`. -/
theorem c7_no_separator_new_file_witness :
    parseBlockContent ("print(1)") = ⟨"", "print(1)"⟩ :=
  c7_no_separator_new_file.1 ("print(1)") (by decide) (by decide)

/-- C8: `create_patch_file` on an empty change mapping fails with the
empty-change-set error surfaced to the caller, and on any non-empty
mapping it returns a written result, never that error. -/
theorem c8_empty_changeset_error :
    (∀ (cfg : PatchGenCfg) (w : World) (pn : Option String) (d a : String),
      create_patch_file cfg w [] pn d a = Except.error noChangesMsg) ∧
    (∀ (cfg : PatchGenCfg) (w : World) (changes : List (String × FileChange))
      (pn : Option String) (d a : String), changes ≠ [] →
      ∃ pw, create_patch_file cfg w changes pn d a = Except.ok pw) := by
  constructor
  · intro cfg w pn d a
    rfl
  · intro cfg w changes pn d a h
    cases changes with
    | nil => exact absurd rfl h
    | cons ch rest => exact ⟨_, create_patch_file_cons cfg w ch rest pn d a⟩

/-- C8 witness: a concrete non-empty change set assembles to an `ok`
result. -/
theorem c8_empty_changeset_error_witness :
    (create_patch_file cfgDemo wEmpty [("x.py", ⟨"o", "mo"⟩)] none ("d2") ("auth2")).isOk
      = true := by
  obtain ⟨pw, hpw⟩ := c8_empty_changeset_error.2 cfgDemo wEmpty [("x.py", ⟨"o", "mo"⟩)]
    none ("d2") ("auth2") (by decide)
  rw [hpw]
  rfl

/-- C9: `create_unified_diff` is pure and deterministic: run under any
ambient state it leaves the state untouched, and its output is the
same function of `(original, modified, path, context_lines)` whatever
the state — two invocations with the same arguments are
byte-identical. -/
theorem c9_create_unified_diff_pure (w w' : World) (o m p : String) (n : Nat) :
    (create_unified_diff_run w o m p n).1 = (create_unified_diff_run w' o m p n).1 ∧
    (create_unified_diff_run w o m p n).2 = w ∧
    create_unified_diff o m p n = create_unified_diff o m p n :=
  ⟨rfl, rfl, rfl⟩

/-- C10 counterexample: the block marked `file: y.py` with a two-line
body produces an entry keyed `y.py`, while its stripped first line is
`file: y.py` — so not every two-line block is keyed by its stripped
first line (the pattern consumes a leading `file`/`path` token, the
colon and whitespace first). -/
theorem c10_marker_optional_counterexample :
    parse_patch_specification c10cex = [("y.py", ⟨"", "body\nmore"⟩)] ∧
    pystrip c10FirstLine = c10FirstLine ∧ ("y.py" : String) ≠ c10FirstLine := by
  decide

/-- C10 amended: because the marker is optional, every fenced block
whose first line still has content after the pattern optionally
consumes a leading `file`/`path` token, an optional colon and leading
whitespace (`markerConsume`), and whose body is closed by the first
newline-fence sequence, produces a ChangeSet entry keyed by the
stripped remainder of that first line; for a plain language tag such
as `python` (beginning with neither token and no colon) nothing is
consumed, so the block is keyed by its stripped first line — in
particular a ```python block with two lines of code yields the entry
keyed `python`. -/
theorem c10_marker_optional_amended :
    (∀ (L B : String),
      L.toList.all (fun c => c != '\n') = true →
      markerConsume L.toList ≠ [] →
      findSubL (B ++ ("\n```")).toList (("\n```") : String).toList = some B.toList.length →
      parse_patch_specification (("```") ++ L ++ ("\n") ++ B ++ ("\n```"))
        = [(pystrip (String.mk (markerConsume L.toList)),
            parseBlockContent (pystrip B))]) ∧
    markerConsume (("python") : String).toList = (("python") : String).toList ∧
    parse_patch_specification c10ex = [("python", ⟨"", "print(1)\nprint(2)"⟩)] := by
  refine ⟨parse_single_block, by decide, by decide⟩

/-- C10 witness: the amended universal at the language-tagged first
line `python` with a two-line body. -/
theorem c10_marker_optional_witness :
    parse_patch_specification (("```") ++ ("python") ++ ("\n") ++ ("print(1)\nprint(2)")
        ++ ("\n```"))
      = [(pystrip (String.mk (markerConsume (("python") : String).toList)),
          parseBlockContent (pystrip ("print(1)\nprint(2)")))] :=
  c10_marker_optional_amended.1 ("python") ("print(1)\nprint(2)")
    (by decide) (by decide) (by decide)

end GIAS
